import Mathlib

/-!
Shallow embedding of `src/src/vote_rust/src/lib.rs` (a Solana vote-counter
program) and proofs about its instruction processor.

Modelling conventions:
* `Pubkey` carries an abstract identity compared by equality, as the source
  compares `account.owner != program_id`.
* An account's `data` is a list of bytes; bytes are `Nat` values (a byte
  buffer holds values `< 256`, and every write performed by the program
  writes values `< 256`).
* The result type is `Option (Except ProgramError Unit × List AccountInfo)`:
  `some (r, accounts')` is a normal return (`r` the `ProgramResult`,
  `accounts'` the final state of the in-place mutated accounts), while
  `none` models an abort of the program by a panic, as caused by the
  unconditional index `instruction_data[0]` on an empty slice.
* `u32` arithmetic wraps: the on-chain build performs `vc + 1` without
  overflow checks, so the successor is taken modulo `2 ^ 32` (the modulo is
  applied by the little-endian byte decomposition in `writeU32LE`).
-/

/-- `solana_program::pubkey::Pubkey`, compared only by equality. -/
structure Pubkey where
  key : Nat
deriving DecidableEq

/-- The variants of `solana_program::program_error::ProgramError` this
program can return.  `NotEnoughAccountKeys` is what `next_account_info`
returns on an exhausted iterator (the spec calls it `MissingAccount`);
`IncorrectProgramId` is the ownership failure (spec: `NotProgramOwned`);
`InvalidAccountData` is the short-buffer failure (spec:
`AccountDataTooSmall`). -/
inductive ProgramError where
  | NotEnoughAccountKeys
  | IncorrectProgramId
  | InvalidAccountData
deriving DecidableEq

/-- The two fields of `solana_program::account_info::AccountInfo` that the
program reads or writes: the owner pubkey and the mutable data buffer. -/
structure AccountInfo where
  owner : Pubkey
  data : List Nat
deriving DecidableEq

/-- `LittleEndian::read_u32(&data[off..off+4])`: the little-endian u32
formed by the four bytes at offsets `off, off+1, off+2, off+3`. -/
def readU32LE (d : List Nat) (off : Nat) : Nat :=
  d.getD off 0 + 256 * d.getD (off + 1) 0 + 65536 * d.getD (off + 2) 0 +
    16777216 * d.getD (off + 3) 0

/-- `LittleEndian::write_u32(&mut data[off..off+4], v)`: overwrite the four
bytes at offsets `off..off+3` with the little-endian decomposition of the
low 32 bits of `v`. -/
def writeU32LE (d : List Nat) (off : Nat) (v : Nat) : List Nat :=
  ((((d.set off (v % 256)).set (off + 1) (v / 256 % 256)).set
      (off + 2) (v / 65536 % 256)).set (off + 3) (v / 16777216 % 256))

/-- `process_instruction` from `src/src/vote_rust/src/lib.rs`, line by line:
take the first account (`NotEnoughAccountKeys` if there is none), refuse an
account not owned by the program (`IncorrectProgramId`), refuse a data
buffer shorter than `2 * mem::size_of::<u32>()` bytes
(`InvalidAccountData`), then inspect `instruction_data[0]` — a panic
(modelled `none`) when the instruction payload is empty — and increment the
little-endian u32 at offset 0 (opcode 1) or offset 4 (opcode 2); any other
opcode falls through both `if`s and the call succeeds without mutation. -/
def processInstruction (programId : Pubkey) (accounts : List AccountInfo)
    (instructionData : List Nat) :
    Option (Except ProgramError Unit × List AccountInfo) :=
  match accounts with
  | [] => some (Except.error ProgramError.NotEnoughAccountKeys, [])
  | account :: rest =>
    if account.owner ≠ programId then
      some (Except.error ProgramError.IncorrectProgramId, account :: rest)
    else if account.data.length < 2 * 4 then
      some (Except.error ProgramError.InvalidAccountData, account :: rest)
    else
      match instructionData with
      | [] => none
      | op :: _ =>
        let d0 := account.data
        let d1 := if op = 1 then writeU32LE d0 0 (readU32LE d0 0 + 1) else d0
        let d2 := if op = 2 then writeU32LE d1 4 (readU32LE d1 4 + 1) else d1
        some (Except.ok (), { account with data := d2 } :: rest)

/-- The state of an account after the opcode-1 branch: the u32 at offset 0
replaced by its successor (low 32 bits). -/
def incrementA (a : AccountInfo) : AccountInfo :=
  { a with data := writeU32LE a.data 0 (readU32LE a.data 0 + 1) }

/-- The state of an account after the opcode-2 branch: the u32 at offset 4
replaced by its successor (low 32 bits). -/
def incrementB (a : AccountInfo) : AccountInfo :=
  { a with data := writeU32LE a.data 4 (readU32LE a.data 4 + 1) }

/-- Two sequential invocations with the same instruction: the second call
runs on the account state the first call returned (a panic aborts). -/
def processTwice (programId : Pubkey) (accounts : List AccountInfo)
    (instructionData : List Nat) :
    Option (Except ProgramError Unit × List AccountInfo) :=
  match processInstruction programId accounts instructionData with
  | none => none
  | some (_, accounts1) => processInstruction programId accounts1 instructionData

/-- A buffer of length at least 8 splits into eight leading bytes and a tail. -/
theorem exists_cons_eight {d : List Nat} (h : 8 ≤ d.length) :
    ∃ b0 b1 b2 b3 b4 b5 b6 b7 t,
      d = b0 :: b1 :: b2 :: b3 :: b4 :: b5 :: b6 :: b7 :: t := by
  rcases d with _ | ⟨b0, _ | ⟨b1, _ | ⟨b2, _ | ⟨b3, _ | ⟨b4, _ | ⟨b5,
    _ | ⟨b6, _ | ⟨b7, t⟩⟩⟩⟩⟩⟩⟩⟩ <;>
      first
        | exact ⟨_, _, _, _, _, _, _, _, _, rfl⟩
        | (simp only [List.length_nil, List.length_cons] at h; omega)

theorem length_writeU32LE (d : List Nat) (off v : Nat) :
    (writeU32LE d off v).length = d.length := by
  simp [writeU32LE]

/-- Reading back the field just written yields the low 32 bits of the
written value. -/
theorem readU32LE_writeU32LE_same {d : List Nat} (off : Nat)
    (h : off + 4 ≤ d.length) (v : Nat) :
    readU32LE (writeU32LE d off v) off = v % 2 ^ 32 := by
  have h0 : off < d.length := by omega
  have h1 : off + 1 < d.length := by omega
  have h2 : off + 2 < d.length := by omega
  have h3 : off + 3 < d.length := by omega
  simp only [readU32LE, writeU32LE]
  rw [List.getD_eq_getElem?_getD, List.getD_eq_getElem?_getD,
    List.getD_eq_getElem?_getD, List.getD_eq_getElem?_getD]
  rw [List.getElem?_set_ne (by omega), List.getElem?_set_ne (by omega),
    List.getElem?_set_ne (by omega),
    List.getElem?_set_self (by simpa using h0)]
  rw [List.getElem?_set_ne (by omega), List.getElem?_set_ne (by omega),
    List.getElem?_set_self (by simpa using h1)]
  rw [List.getElem?_set_ne (by omega),
    List.getElem?_set_self (by simpa using h2)]
  rw [List.getElem?_set_self (by simpa using h3)]
  simp only [Option.getD_some]
  omega

/-- A byte outside the written 4-byte field is untouched by `writeU32LE`. -/
theorem getD_writeU32LE_outside (d : List Nat) (off v i : Nat)
    (h : i < off ∨ off + 4 ≤ i) :
    (writeU32LE d off v).getD i 0 = d.getD i 0 := by
  simp only [writeU32LE]
  rw [List.getD_eq_getElem?_getD, List.getD_eq_getElem?_getD]
  rw [List.getElem?_set_ne (by omega), List.getElem?_set_ne (by omega),
    List.getElem?_set_ne (by omega), List.getElem?_set_ne (by omega)]

/-- Reading a 4-byte field disjoint from the written one is unchanged. -/
theorem readU32LE_writeU32LE_disjoint (d : List Nat) (off off' v : Nat)
    (h : off' + 4 ≤ off ∨ off + 4 ≤ off') :
    readU32LE (writeU32LE d off v) off' = readU32LE d off' := by
  simp only [readU32LE]
  rw [getD_writeU32LE_outside d off v off' (by omega),
    getD_writeU32LE_outside d off v (off' + 1) (by omega),
    getD_writeU32LE_outside d off v (off' + 2) (by omega),
    getD_writeU32LE_outside d off v (off' + 3) (by omega)]

/-- The ownership check fires before anything else about the account or the
instruction is looked at. -/
theorem process_err_owner {programId : Pubkey} {a : AccountInfo}
    (rest : List AccountInfo) (instr : List Nat) (h : a.owner ≠ programId) :
    processInstruction programId (a :: rest) instr =
      some (Except.error ProgramError.IncorrectProgramId, a :: rest) := by
  simp [processInstruction, h]

/-- The length check fires for an owned account with fewer than 8 data
bytes, whatever the instruction payload is. -/
theorem process_err_len {programId : Pubkey} {a : AccountInfo}
    (rest : List AccountInfo) (instr : List Nat) (hown : a.owner = programId)
    (hlen : a.data.length < 8) :
    processInstruction programId (a :: rest) instr =
      some (Except.error ProgramError.InvalidAccountData, a :: rest) := by
  simp [processInstruction, hown, hlen]

/-- A valid account and an empty instruction payload: the unconditional
index `instruction_data[0]` is out of bounds and the program panics. -/
theorem process_empty_instr {programId : Pubkey} {a : AccountInfo}
    (rest : List AccountInfo) (hown : a.owner = programId)
    (hlen : 8 ≤ a.data.length) :
    processInstruction programId (a :: rest) [] = none := by
  simp [processInstruction, hown, Nat.not_lt.mpr hlen]

/-- Evaluation of the opcode-1 branch on a valid account. -/
theorem process_op1 {programId : Pubkey} {a : AccountInfo}
    (rest : List AccountInfo) (restI : List Nat) (hown : a.owner = programId)
    (hlen : 8 ≤ a.data.length) :
    processInstruction programId (a :: rest) (1 :: restI) =
      some (Except.ok (), incrementA a :: rest) := by
  simp [processInstruction, hown, Nat.not_lt.mpr hlen, incrementA]

/-- Evaluation of the opcode-2 branch on a valid account. -/
theorem process_op2 {programId : Pubkey} {a : AccountInfo}
    (rest : List AccountInfo) (restI : List Nat) (hown : a.owner = programId)
    (hlen : 8 ≤ a.data.length) :
    processInstruction programId (a :: rest) (2 :: restI) =
      some (Except.ok (), incrementB a :: rest) := by
  simp [processInstruction, hown, Nat.not_lt.mpr hlen, incrementB]

/-- Evaluation on a valid account with an opcode that is neither 1 nor 2:
both `if`s fall through and nothing is written. -/
theorem process_op_other {programId : Pubkey} {a : AccountInfo}
    (rest : List AccountInfo) (restI : List Nat) (op : Nat)
    (hown : a.owner = programId) (hlen : 8 ≤ a.data.length)
    (h1 : op ≠ 1) (h2 : op ≠ 2) :
    processInstruction programId (a :: rest) (op :: restI) =
      some (Except.ok (), a :: rest) := by
  subst hown
  simp [processInstruction, Nat.not_lt.mpr hlen, h1, h2]

theorem incrementA_owner (a : AccountInfo) : (incrementA a).owner = a.owner := rfl

theorem incrementB_owner (a : AccountInfo) : (incrementB a).owner = a.owner := rfl

theorem incrementA_length (a : AccountInfo) :
    (incrementA a).data.length = a.data.length := length_writeU32LE a.data 0 _

theorem incrementB_length (a : AccountInfo) :
    (incrementB a).data.length = a.data.length := length_writeU32LE a.data 4 _

/-- C1 (amended): for a valid account (owner matches, at least 8 data
bytes) and a non-empty instruction, opcode 1 succeeds and replaces the
little-endian u32 at bytes [0,4) by its old value plus 1 modulo 2^32, and
opcode 2 succeeds and replaces the little-endian u32 at bytes [4,8) by its
old value plus 1 modulo 2^32; in each case the other counter, the buffer
length and every byte outside the mutated 4-byte field are unchanged. -/
theorem increment_updates_only_target (programId : Pubkey) (a : AccountInfo)
    (restA : List AccountInfo) (restI : List Nat) (hown : a.owner = programId)
    (hlen : 8 ≤ a.data.length) :
    (processInstruction programId (a :: restA) (1 :: restI) =
        some (Except.ok (), incrementA a :: restA) ∧
      readU32LE (incrementA a).data 0 = (readU32LE a.data 0 + 1) % 2 ^ 32 ∧
      readU32LE (incrementA a).data 4 = readU32LE a.data 4 ∧
      (incrementA a).data.length = a.data.length ∧
      (∀ i, 4 ≤ i → (incrementA a).data.getD i 0 = a.data.getD i 0)) ∧
    (processInstruction programId (a :: restA) (2 :: restI) =
        some (Except.ok (), incrementB a :: restA) ∧
      readU32LE (incrementB a).data 4 = (readU32LE a.data 4 + 1) % 2 ^ 32 ∧
      readU32LE (incrementB a).data 0 = readU32LE a.data 0 ∧
      (incrementB a).data.length = a.data.length ∧
      (∀ i, i < 4 ∨ 8 ≤ i → (incrementB a).data.getD i 0 = a.data.getD i 0)) := by
  refine ⟨⟨process_op1 restA restI hown hlen, ?_, ?_, incrementA_length a, ?_⟩,
    ⟨process_op2 restA restI hown hlen, ?_, ?_, incrementB_length a, ?_⟩⟩
  · exact readU32LE_writeU32LE_same 0 (by omega) _
  · exact readU32LE_writeU32LE_disjoint a.data 0 4 _ (Or.inr (by omega))
  · intro i hi
    exact getD_writeU32LE_outside a.data 0 _ i (Or.inr (by omega))
  · exact readU32LE_writeU32LE_same 4 (by omega) _
  · exact readU32LE_writeU32LE_disjoint a.data 4 0 _ (Or.inl (by omega))
  · intro i hi
    exact getD_writeU32LE_outside a.data 4 _ i (by omega)

/-- Witness for C1: on the all-zero 8-byte buffer, opcode 1 yields the
account whose counter A was incremented. -/
theorem increment_updates_only_target_witness :
    processInstruction (Pubkey.mk 0)
        [AccountInfo.mk (Pubkey.mk 0) [0, 0, 0, 0, 0, 0, 0, 0]] [1] =
      some (Except.ok (),
        [incrementA (AccountInfo.mk (Pubkey.mk 0) [0, 0, 0, 0, 0, 0, 0, 0])]) :=
  (increment_updates_only_target (Pubkey.mk 0)
    (AccountInfo.mk (Pubkey.mk 0) [0, 0, 0, 0, 0, 0, 0, 0]) [] [] rfl
    (by decide)).1.1

/-- Counterexample to C1 as stated: with counter A at u32::MAX =
4294967295, opcode 1 succeeds but the new counter value 0 is not the old
value plus 1 — the u32 addition wraps. -/
theorem opcode1_at_umax_not_plus_one :
    processInstruction (Pubkey.mk 0)
        [AccountInfo.mk (Pubkey.mk 0) [255, 255, 255, 255, 9, 9, 9, 9]] [1] =
      some (Except.ok (),
        [AccountInfo.mk (Pubkey.mk 0) [0, 0, 0, 0, 9, 9, 9, 9]]) ∧
    readU32LE [0, 0, 0, 0, 9, 9, 9, 9] 0 ≠
      readU32LE [255, 255, 255, 255, 9, 9, 9, 9] 0 + 1 :=
  ⟨rfl, by decide⟩

/-- C2: an account whose owner differs from the caller identity is rejected
with `IncorrectProgramId` (the spec's `NotProgramOwned`) and the returned
account state — data buffer included — is exactly the input state. -/
theorem owner_mismatch_rejected (programId : Pubkey) (a : AccountInfo)
    (restA : List AccountInfo) (instr : List Nat) (h : a.owner ≠ programId) :
    processInstruction programId (a :: restA) instr =
      some (Except.error ProgramError.IncorrectProgramId, a :: restA) :=
  process_err_owner restA instr h

/-- Witness for C2 at a concrete mismatched owner. -/
theorem owner_mismatch_rejected_witness :
    processInstruction (Pubkey.mk 0) [AccountInfo.mk (Pubkey.mk 1) [7]] [1] =
      some (Except.error ProgramError.IncorrectProgramId,
        [AccountInfo.mk (Pubkey.mk 1) [7]]) :=
  owner_mismatch_rejected (Pubkey.mk 0) (AccountInfo.mk (Pubkey.mk 1) [7]) []
    [1] (by decide)

/-- C3: an owned account whose data buffer is shorter than 8 bytes is
rejected with `InvalidAccountData` (the spec's `AccountDataTooSmall`) and
the returned account state is exactly the input state. -/
theorem short_buffer_rejected (programId : Pubkey) (a : AccountInfo)
    (restA : List AccountInfo) (instr : List Nat) (hown : a.owner = programId)
    (hlen : a.data.length < 8) :
    processInstruction programId (a :: restA) instr =
      some (Except.error ProgramError.InvalidAccountData, a :: restA) :=
  process_err_len restA instr hown hlen

/-- Witness for C3 at a concrete 4-byte buffer. -/
theorem short_buffer_rejected_witness :
    processInstruction (Pubkey.mk 0)
        [AccountInfo.mk (Pubkey.mk 0) [0, 0, 0, 0]] [1] =
      some (Except.error ProgramError.InvalidAccountData,
        [AccountInfo.mk (Pubkey.mk 0) [0, 0, 0, 0]]) :=
  short_buffer_rejected (Pubkey.mk 0) (AccountInfo.mk (Pubkey.mk 0) [0, 0, 0, 0])
    [] [1] rfl (by decide)

/-- C4 (amended): for a valid account (owner matches, at least 8 data
bytes), an empty instruction payload is NOT a success no-op: the program
unconditionally indexes `instruction_data[0]`, an out-of-bounds access on
an empty slice, and panics (modelled as `none`) instead of returning. -/
theorem empty_payload_panics (programId : Pubkey) (a : AccountInfo)
    (restA : List AccountInfo) (hown : a.owner = programId)
    (hlen : 8 ≤ a.data.length) :
    processInstruction programId (a :: restA) [] = none :=
  process_empty_instr restA hown hlen

/-- Witness for C4's amended statement at a concrete valid account. -/
theorem empty_payload_panics_witness :
    processInstruction (Pubkey.mk 0)
      [AccountInfo.mk (Pubkey.mk 0) [0, 0, 0, 0, 0, 0, 0, 0]] [] = none :=
  empty_payload_panics (Pubkey.mk 0)
    (AccountInfo.mk (Pubkey.mk 0) [0, 0, 0, 0, 0, 0, 0, 0]) [] rfl (by decide)

/-- Counterexample to C4 as stated: on a valid account with an empty
payload the call does not return success with the buffer unchanged — it
aborts (`none`), because `instruction_data[0]` is read out of bounds. -/
theorem empty_payload_not_noop :
    processInstruction (Pubkey.mk 0)
        [AccountInfo.mk (Pubkey.mk 0) [3, 0, 0, 0, 5, 0, 0, 0]] [] = none ∧
    (none : Option (Except ProgramError Unit × List AccountInfo)) ≠
      some (Except.ok (),
        [AccountInfo.mk (Pubkey.mk 0) [3, 0, 0, 0, 5, 0, 0, 0]]) :=
  ⟨rfl, by simp⟩

/-- C5: for a valid account, a non-empty instruction whose opcode is
neither 1 nor 2 succeeds and leaves the account — both counters and every
other byte of the buffer — exactly as it was. -/
theorem unknown_opcode_noop (programId : Pubkey) (a : AccountInfo)
    (restA : List AccountInfo) (restI : List Nat) (op : Nat)
    (hown : a.owner = programId) (hlen : 8 ≤ a.data.length)
    (h1 : op ≠ 1) (h2 : op ≠ 2) :
    processInstruction programId (a :: restA) (op :: restI) =
      some (Except.ok (), a :: restA) :=
  process_op_other restA restI op hown hlen h1 h2

/-- Witness for C5 at opcode 0 (the test file's initial instruction byte). -/
theorem unknown_opcode_noop_witness :
    processInstruction (Pubkey.mk 0)
        [AccountInfo.mk (Pubkey.mk 0) [3, 0, 0, 0, 5, 0, 0, 0]] [0] =
      some (Except.ok (),
        [AccountInfo.mk (Pubkey.mk 0) [3, 0, 0, 0, 5, 0, 0, 0]]) :=
  unknown_opcode_noop (Pubkey.mk 0)
    (AccountInfo.mk (Pubkey.mk 0) [3, 0, 0, 0, 5, 0, 0, 0]) [] [] 0 rfl
    (by decide) (by decide) (by decide)

/-- C6: with an empty accounts sequence, every instruction payload fails
with `NotEnoughAccountKeys` (the spec's `MissingAccount`); no account
exists to be read or mutated, and the returned state is the empty list. -/
theorem empty_accounts_rejected (programId : Pubkey) (instr : List Nat) :
    processInstruction programId [] instr =
      some (Except.error ProgramError.NotEnoughAccountKeys, []) := rfl

/-- C7 (amended): for every valid account (owner matches, at least 8 data
bytes) and either opcode in {1,2}, the call succeeds and the targeted
counter is modified by exactly +1 using wrapping 32-bit arithmetic — the
new value is the old value plus 1 modulo 2^32 — and in particular when the
targeted little-endian u32 counter already holds u32::MAX = 2^32 - 1 the
call silently wraps it to 0. -/
theorem increment_wrapping_u32 (programId : Pubkey) (a : AccountInfo)
    (restA : List AccountInfo) (restI : List Nat) (hown : a.owner = programId)
    (hlen : 8 ≤ a.data.length) :
    (processInstruction programId (a :: restA) (1 :: restI) =
        some (Except.ok (), incrementA a :: restA) ∧
      readU32LE (incrementA a).data 0 = (readU32LE a.data 0 + 1) % 2 ^ 32 ∧
      (readU32LE a.data 0 = 2 ^ 32 - 1 →
        readU32LE (incrementA a).data 0 = 0)) ∧
    (processInstruction programId (a :: restA) (2 :: restI) =
        some (Except.ok (), incrementB a :: restA) ∧
      readU32LE (incrementB a).data 4 = (readU32LE a.data 4 + 1) % 2 ^ 32 ∧
      (readU32LE a.data 4 = 2 ^ 32 - 1 →
        readU32LE (incrementB a).data 4 = 0)) := by
  have hA := readU32LE_writeU32LE_same 0
    (by omega : 0 + 4 ≤ a.data.length) (readU32LE a.data 0 + 1)
  have hB := readU32LE_writeU32LE_same 4
    (by omega : 4 + 4 ≤ a.data.length) (readU32LE a.data 4 + 1)
  refine ⟨⟨process_op1 restA restI hown hlen, ?_, ?_⟩,
    ⟨process_op2 restA restI hown hlen, ?_, ?_⟩⟩
  · exact hA
  · intro hmax
    simp only [incrementA] at hA ⊢
    rw [hA, hmax]
    norm_num
  · exact hB
  · intro hmax
    simp only [incrementB] at hB ⊢
    rw [hB, hmax]
    norm_num

/-- Witness for C7's amended statement on a buffer with both counters at
u32::MAX: opcode 1 succeeds and stores the wrapped counter A. -/
theorem increment_wrapping_u32_witness :
    processInstruction (Pubkey.mk 0)
        [AccountInfo.mk (Pubkey.mk 0)
          [255, 255, 255, 255, 255, 255, 255, 255]] [1] =
      some (Except.ok (),
        [incrementA (AccountInfo.mk (Pubkey.mk 0)
          [255, 255, 255, 255, 255, 255, 255, 255])]) :=
  (increment_wrapping_u32 (Pubkey.mk 0)
    (AccountInfo.mk (Pubkey.mk 0) [255, 255, 255, 255, 255, 255, 255, 255])
    [] [] rfl (by decide)).1.1

/-- Counterexample to C7 as stated: the code does silently wrap a counter
at u32::MAX to 0 — the call succeeds and the stored value becomes 0. -/
theorem increment_not_wraparound_free :
    processInstruction (Pubkey.mk 0)
        [AccountInfo.mk (Pubkey.mk 0) [255, 255, 255, 255, 1, 0, 0, 0]] [1] =
      some (Except.ok (),
        [AccountInfo.mk (Pubkey.mk 0) [0, 0, 0, 0, 1, 0, 0, 0]]) ∧
    readU32LE [255, 255, 255, 255, 1, 0, 0, 0] 0 = 4294967295 ∧
    readU32LE [0, 0, 0, 0, 1, 0, 0, 0] 0 = 0 :=
  ⟨rfl, by decide, by decide⟩

/-- C8: the validation checks short-circuit in program order.  An account
failing the ownership check is rejected with `IncorrectProgramId` with no
regard for its buffer length (in particular when the buffer is also shorter
than 8 bytes), and each validation failure is returned for EVERY
instruction payload — including the empty one, which would panic if the
opcode were inspected first — so both checks run before `instruction[0]`
is touched. -/
theorem validation_short_circuits (programId : Pubkey) (a : AccountInfo)
    (restA : List AccountInfo) (instr : List Nat) :
    (a.owner ≠ programId →
      processInstruction programId (a :: restA) instr =
        some (Except.error ProgramError.IncorrectProgramId, a :: restA)) ∧
    (a.owner = programId → a.data.length < 8 →
      processInstruction programId (a :: restA) instr =
        some (Except.error ProgramError.InvalidAccountData, a :: restA)) :=
  ⟨fun h => process_err_owner restA instr h,
    fun hown hlen => process_err_len restA instr hown hlen⟩

/-- C9 (amended): mutation composes modulo 2^32 and is not idempotent —
two opcode-1 calls in sequence leave counter A at (a + 2) % 2^32 — while
validation failures are idempotent: a call with a wrong owner or a short
buffer fails the same way on repetition, the buffer never changing. -/
theorem double_vote_composition (programId : Pubkey) (a : AccountInfo)
    (restA : List AccountInfo) (restI : List Nat) (hown : a.owner = programId)
    (hlen : 8 ≤ a.data.length) :
    processTwice programId (a :: restA) (1 :: restI) =
      some (Except.ok (), incrementA (incrementA a) :: restA) ∧
    readU32LE (incrementA (incrementA a)).data 0 =
      (readU32LE a.data 0 + 2) % 2 ^ 32 ∧
    (∀ b : AccountInfo, b.owner ≠ programId →
      processTwice programId (b :: restA) (1 :: restI) =
        some (Except.error ProgramError.IncorrectProgramId, b :: restA)) ∧
    (∀ b : AccountInfo, b.owner = programId → b.data.length < 8 →
      processTwice programId (b :: restA) (1 :: restI) =
        some (Except.error ProgramError.InvalidAccountData, b :: restA)) := by
  have hown1 : (incrementA a).owner = programId := hown
  have hlen1 : 8 ≤ (incrementA a).data.length := by
    rw [incrementA_length]; exact hlen
  refine ⟨?_, ?_, ?_, ?_⟩
  · rw [processTwice, process_op1 restA restI hown hlen]
    exact process_op1 restA restI hown1 hlen1
  · have h1 := readU32LE_writeU32LE_same 0
      (by omega : 0 + 4 ≤ a.data.length) (readU32LE a.data 0 + 1)
    have h2 := readU32LE_writeU32LE_same 0
      (by omega : 0 + 4 ≤ (incrementA a).data.length)
      (readU32LE (incrementA a).data 0 + 1)
    simp only [incrementA] at h2 ⊢
    rw [h2, h1]
    omega
  · intro b hb
    rw [processTwice, process_err_owner restA (1 :: restI) hb]
    exact process_err_owner restA (1 :: restI) hb
  · intro b hb hblen
    rw [processTwice, process_err_len restA (1 :: restI) hb hblen]
    exact process_err_len restA (1 :: restI) hb hblen

/-- Witness for C9's amended statement: two opcode-1 calls on the all-zero
buffer, composed. -/
theorem double_vote_composition_witness :
    processTwice (Pubkey.mk 0)
        [AccountInfo.mk (Pubkey.mk 0) [0, 0, 0, 0, 0, 0, 0, 0]] [1] =
      some (Except.ok (),
        [incrementA (incrementA
          (AccountInfo.mk (Pubkey.mk 0) [0, 0, 0, 0, 0, 0, 0, 0]))]) :=
  (double_vote_composition (Pubkey.mk 0)
    (AccountInfo.mk (Pubkey.mk 0) [0, 0, 0, 0, 0, 0, 0, 0]) [] [] rfl
    (by decide)).1

/-- Counterexample to C9 as stated: with counter A at u32::MAX, two
opcode-1 calls leave the counter at 1, not at its old value plus 2. -/
theorem double_vote_at_umax_not_plus_two :
    processTwice (Pubkey.mk 0)
        [AccountInfo.mk (Pubkey.mk 0) [255, 255, 255, 255, 0, 0, 0, 0]] [1] =
      some (Except.ok (),
        [AccountInfo.mk (Pubkey.mk 0) [1, 0, 0, 0, 0, 0, 0, 0]]) ∧
    readU32LE [1, 0, 0, 0, 0, 0, 0, 0] 0 ≠
      readU32LE [255, 255, 255, 255, 0, 0, 0, 0] 0 + 2 :=
  ⟨rfl, by decide⟩

/-- C10: only the first account is consulted.  A call with trailing
accounts behaves exactly as the call given only `accounts[0]`: same panic
or result value, the first account mutated the same way, and the trailing
accounts passed through untouched (so their contents never influence the
outcome). -/
theorem trailing_accounts_ignored (programId : Pubkey) (a : AccountInfo)
    (rest : List AccountInfo) (instr : List Nat) :
    processInstruction programId (a :: rest) instr =
      Option.map (fun r => (r.1, r.2 ++ rest))
        (processInstruction programId [a] instr) := by
  rcases instr with _ | ⟨op, restI⟩ <;>
    by_cases h1 : a.owner = programId <;>
      by_cases h2 : a.data.length < 2 * 4 <;>
        simp [processInstruction, h1, h2]
